import Mathlib

/-! Shallow embedding of src/lib/handlers.js from the cf-requests repository,
together with theorems settling the claims about its specification. -/

namespace CfRequests

/-- A JavaScript value, as far as the handlers module manipulates them:
strings, numbers (the module only ever works with integral ones), booleans,
arrays, plain objects (ordered field lists with unique keys), undefined and
null. -/
inductive JVal where
  | str (s : String)
  | num (n : Int)
  | bool (b : Bool)
  | arr (l : List JVal)
  | obj (fields : List (String × JVal))
  | undefined
  | null

/-- Models the strict comparison with the literal true that the source uses
in result === true and valid !== true. -/
def JVal.isTrue : JVal → Bool
  | .bool true => true
  | _ => false

/-- Models Array.isArray from the check in getErrors. -/
def JVal.isArray : JVal → Bool
  | .arr _ => true
  | _ => false

/-- True exactly on plain objects; used to describe error records. -/
def JVal.isObject : JVal → Bool
  | .obj _ => true
  | _ => false

/-- Models the JS nullish-coalescing assignment x ??= d: undefined and null
are replaced by the default, everything else is kept. -/
def nullish (v d : JVal) : JVal :=
  match v with
  | .undefined => d
  | .null => d
  | _ => v

/-- JS string coercion as performed by a template literal: strings stay,
numbers print, booleans print, undefined and null print their names, arrays
join their coerced elements with commas (null and undefined elements become
the empty string), and plain objects print as [object Object]. -/
def jsToString : JVal → String
  | .str s => s
  | .num n => toString n
  | .bool b => if b then "true" else "false"
  | .undefined => "undefined"
  | .null => "null"
  | .obj _ => "[object Object]"
  | .arr l => String.intercalate "," (l.attach.map (fun e =>
      match e with
      | ⟨.undefined, _⟩ => ""
      | ⟨.null, _⟩ => ""
      | ⟨v, _⟩ => jsToString v))
termination_by v => sizeOf v
decreasing_by
  simp_wf
  have h := List.sizeOf_lt_of_mem ‹_ ∈ l›
  omega

/-- Models the JS in operator for the property names getErrors probes: on a
plain object it reports whether the key is a field (the probed keys message
and value do not occur on Object.prototype), on an array it is false for
those keys, and on a primitive, undefined or null it throws a TypeError,
modelled as none. -/
def hasProp (k : String) : JVal → Option Bool
  | .obj fields => some (fields.any (fun p => p.1 == k))
  | .arr _ => some false
  | _ => none

/-- Models property access e.k on the values getErrors reads it from;
missing fields read as undefined. -/
def getProp (k : String) : JVal → JVal
  | .obj fields =>
      match fields.find? (fun p => p.1 == k) with
      | some p => p.2
      | none => .undefined
  | _ => .undefined

/-- The per-entry conversion lambda inside getErrors: an entry with both a
message and a value property becomes the interpolated string, any other
entry is kept; none models the TypeError the JS in operator raises on a
primitive entry. -/
def getErrorsEntry (e : JVal) : Option JVal :=
  match hasProp "message" e with
  | none => none
  | some false => some e
  | some true =>
      match hasProp "value" e with
      | none => none
      | some false => some e
      | some true =>
          some (.str (jsToString (getProp "message" e) ++ " (got '"
            ++ jsToString (getProp "value" e) ++ "')"))

/-- The entrywise mapping of the array branch of getErrors; a TypeError on
any entry aborts the whole map, as the JS callback would. -/
def getErrorsList : List JVal → Option (List JVal)
  | [] => some []
  | e :: t =>
      match getErrorsEntry e with
      | none => none
      | some v =>
          match getErrorsList t with
          | none => none
          | some vs => some (v :: vs)

/-- Embeds getErrors from src/lib/handlers.js: a non-array input is returned
untouched; an array is mapped entrywise by the conversion above. -/
def getErrors (errors : JVal) : Option JVal :=
  match errors with
  | .arr l => (getErrorsList l).map .arr
  | v => some v

/-- The conversion of a single error record as the specification words it:
a record of shape with message and value becomes the human-readable string,
anything else passes through unchanged. Stated from the spec for comparison
with getErrors. -/
def specConvertEntry (e : JVal) : JVal :=
  match hasProp "message" e, hasProp "value" e with
  | some true, some true =>
      .str (jsToString (getProp "message" e) ++ " (got '"
        ++ jsToString (getProp "value" e) ++ "')")
  | _, _ => e

/-- A schema binding: the external validation contract, an object with a
validate function returning the literal true or an error list, and an
optional mask function. -/
structure Binding where
  validate : JVal → JVal
  mask : Option (JVal → JVal)

/-- The per-request context, restricted to the capabilities the handlers
module uses: the state-bag entry holding a registered response validator,
the last HTTP status set, the finalized JSON body, the validated data stored
per data kind by the framework validator, the stack-trace environment
variable, and whether the chain continuation ran. -/
structure Ctx where
  responseValidator : Option Binding
  statusSet : Option JVal
  jsonBody : Option JVal
  validated : List (String × JVal)
  envStacktrace : Option String
  nextRan : Bool

/-- A response object as produced by the JSON finalizer of the context:
it carries the status that was in effect and the JSON body. -/
structure ResponseObj where
  status : JVal
  body : JVal

/-- Models ctx.status of the framework context. -/
def Ctx.setStatus (ctx : Ctx) (s : JVal) : Ctx :=
  { ctx with statusSet := some s }

/-- Models ctx.json of the framework context: records the finalized body and
produces a response carrying the currently-set status, defaulting to 200. -/
def Ctx.json (ctx : Ctx) (b : JVal) : Ctx × ResponseObj :=
  ({ ctx with jsonBody := some b },
   { status := ctx.statusSet.getD (.num 200), body := b })

/-- The JS object literal with keys success, status, message and data that
both success and fail construct. -/
def mkEnvelope (succ : Bool) (status : JVal) (message : String) (data : JVal) : JVal :=
  .obj [("success", .bool succ), ("status", status),
        ("message", .str message), ("data", data)]

/-- The error values a handler can throw, mirroring the class hierarchy of
the source: SchemaError carries a message, a status and a result payload;
HttpError carries a message and a status; everything else is a plain error.
HttpError and plain errors carry the optional stack string the translator
may read; SchemaError instances never have their stack read. -/
inductive JSError where
  | schemaErr (message : String) (status : Int) (result : JVal)
  | httpErr (message : String) (status : Int) (stack : Option String)
  | plainErr (message : String) (stack : Option String)

/-- The message property of a thrown error. -/
def JSError.message : JSError → String
  | .schemaErr m _ _ => m
  | .httpErr m _ _ => m
  | .plainErr m _ => m

/-- Embeds success from src/lib/handlers.js: defaults status to 200 and
result to the empty array, builds the envelope, and if a response validator
is registered first validates the whole envelope, throwing a SchemaError
with status 500 and the returned error list when validation is not exactly
true, then masks the whole envelope when a mask function exists; finally
sets the status and finalizes the JSON body. -/
def success (ctx : Ctx) (message : String) (result status : JVal) :
    Except JSError (Ctx × ResponseObj) :=
  let status := nullish status (.num 200)
  let result := nullish result (.arr [])
  let body0 := mkEnvelope true status message result
  match ctx.responseValidator with
  | some v =>
      let valid := v.validate body0
      if valid.isTrue then
        let body1 :=
          match v.mask with
          | some m => m body0
          | none => body0
        .ok ((ctx.setStatus status).json body1)
      else
        .error (.schemaErr "response data failed schema validation" 500 valid)
  | none => .ok ((ctx.setStatus status).json body0)

/-- Embeds fail from src/lib/handlers.js: defaults status to 400, sets it on
the context and finalizes the failure envelope. -/
def fail (ctx : Ctx) (message : String) (status result : JVal) :
    Ctx × ResponseObj :=
  let status := nullish status (.num 400)
  (ctx.setStatus status).json (mkEnvelope false status message result)

/-- What the validation callback hands back to the framework: either a value
to store as validated data, or a response that short-circuits the chain. -/
inductive CbResult where
  | value (v : JVal)
  | response (r : ResponseObj)

/-- Modelled from the spec: the validator middleware combinator imported
from the host framework (hono/validator), whose source is not part of this
repository. Per the specification of the Request Validator Adapter, the
framework extracts the raw value for the data kind, runs the callback, and
when the callback produced a response returns it without running the chain
continuation; otherwise it stores the returned value into the request
context under the data kind and lets the chain proceed. The outer none
propagates an exception from the callback. -/
def validator (dataType : String) (cb : JVal → Ctx → Option (Ctx × CbResult)) :
    JVal → Ctx → Option (Ctx × Option ResponseObj) :=
  fun value ctx =>
    match cb value ctx with
    | none => none
    | some (ctx1, .response r) => some (ctx1, some r)
    | some (ctx1, .value v) =>
        some ({ ctx1 with validated := (dataType, v) :: ctx1.validated,
                          nextRan := true }, none)

/-- Embeds validate from src/lib/handlers.js: wraps the schema binding into
the framework validator; the callback returns the masked value (or the raw
value when no mask function exists) when validation returns exactly true,
and otherwise finalizes a 422 failure envelope whose data is the converted
error list. -/
def validate (dataType : String) (b : Binding) :
    JVal → Ctx → Option (Ctx × Option ResponseObj) :=
  validator dataType (fun value ctx =>
    let result := b.validate value
    if result.isTrue then
      some (ctx, .value (match b.mask with
        | some m => m value
        | none => value))
    else
      match getErrors result with
      | none => none
      | some errs =>
          some (let p := fail ctx
                  ("request " ++ dataType ++ " data failed schema validation")
                  (.num 422) errs
                (p.1, .response p.2)))

/-- Embeds verify from src/lib/handlers.js: stores the binding into the
context state bag under the namespaced key and awaits the continuation. -/
def verify (v : Binding) (ctx : Ctx) : Ctx :=
  { ctx with responseValidator := some v, nextRan := true }

/-- Splitting a character sequence at every newline character, as the JS
split on the newline separator does: the empty string splits into one empty
piece, and each newline starts a new piece. -/
def splitOnNewline : List Char → List (List Char)
  | [] => [[]]
  | c :: cs =>
      if c = '\n' then [] :: splitOnNewline cs
      else
        match splitOnNewline cs with
        | [] => [[c]]
        | h :: t => (c :: h) :: t

/-- JS whitespace trimming on a character sequence: drop whitespace from
both ends. -/
def jsTrimChars (cs : List Char) : List Char :=
  ((cs.dropWhile Char.isWhitespace).reverse.dropWhile Char.isWhitespace).reverse

/-- Embeds the stack-to-array conversion inside body: split the stack on
newlines, drop the leading summary line, trim each remaining line, and when
the trimmed line begins with the three characters of the at prefix drop
them, keeping the line otherwise. -/
def getStackLines (stack : String) : List String :=
  ((splitOnNewline stack.data).drop 1).map (fun line =>
    let t := jsTrimChars line
    String.mk (if t.take 3 = ['a', 't', ' '] then t.drop 3 else t))

/-- Embeds body from src/lib/handlers.js: run the handler and pass its
result through; on a thrown error, a SchemaError contributes its converted
result list as the data, any other error contributes a stack-trace array
exactly when the environment flag is the string true or yes and the error
carries a string stack; the status is the status carried by an HttpError or
SchemaError and 500 otherwise; the failure envelope is then finalized. The
outer none models the conversion of the error list itself raising. -/
def body (handler : Ctx → Except (Ctx × JSError) (Ctx × ResponseObj))
    (ctx : Ctx) : Option (Ctx × ResponseObj) :=
  match handler ctx with
  | .ok res => some res
  | .error (ctx1, err) =>
      let errorData : Option JVal :=
        match err with
        | .schemaErr _ _ result => getErrors result
        | .httpErr _ _ stack | .plainErr _ stack =>
            if ctx1.envStacktrace = some "true" ∨ ctx1.envStacktrace = some "yes" then
              match stack with
              | some s => some (.arr ((getStackLines s).map .str))
              | none => some .undefined
            else some .undefined
      match errorData with
      | none => none
      | some errData =>
          let status : Int :=
            match err with
            | .schemaErr _ st _ => st
            | .httpErr _ st _ => st
            | .plainErr _ _ => 500
          some (fail ctx1 err.message (.num status) errData)

/-- An argument to routeHandler: a function value carrying whether it is
asynchronous, its declared arity, and (as invoked with one argument) its
behaviour; or a non-function value. -/
inductive RouteArg where
  | func (isAsync : Bool) (arity : Nat)
      (f : Ctx → Except (Ctx × JSError) (Ctx × ResponseObj))
  | value (v : JVal)

/-- An entry of the array routeHandler returns: either a handler wrapped by
body, or an argument passed through untouched. -/
inductive RouteEntry where
  | wrapped (f : Ctx → Option (Ctx × ResponseObj))
  | plain (a : RouteArg)

/-- Embeds routeHandler from src/lib/handlers.js: every argument that is an
asynchronous function of declared arity one is wrapped by body, every other
argument is placed into the result as-is. -/
def routeHandler (args : List RouteArg) : List RouteEntry :=
  args.map (fun arg =>
    match arg with
    | .func true 1 f => .wrapped (body f)
    | a => .plain a)

/-- A fresh request context with nothing registered, for concrete instances. -/
def ctx0 : Ctx :=
  { responseValidator := none, statusSet := none, jsonBody := none,
    validated := [], envStacktrace := none, nextRan := false }

/-- A binding that accepts everything and masks to a fixed string. -/
def bMask : Binding :=
  { validate := fun _ => .bool true, mask := some (fun _ => .str "masked") }

/-- A binding that rejects everything with a one-record error list. -/
def bReject : Binding :=
  { validate := fun _ => .arr [.obj [("message", .str "expected string"),
                                     ("value", .str "3")]],
    mask := none }

/-- A concrete stack string with one summary line and one frame. -/
def stackStr : String := "Error: boom\n    at foo (bar.js:1:1)"

/-- A handler that throws a plain error with message boom and a stack. -/
def hBoom : Ctx → Except (Ctx × JSError) (Ctx × ResponseObj) :=
  fun c => .error (c, .plainErr "boom" (some stackStr))

/-- A handler that throws a SchemaError with a one-record result. -/
def hSchemaThrow : Ctx → Except (Ctx × JSError) (Ctx × ResponseObj) :=
  fun c => .error (c, .schemaErr "oops" 512
    (.arr [.obj [("message", .str "x"), ("value", .str "y")]]))

/-- The fresh context with the stack-trace environment flag set to true. -/
def ctxTrue : Ctx := { ctx0 with envStacktrace := some "true" }

/-- The fresh context with the accepting masking verifier registered. -/
def ctxVer : Ctx := { ctx0 with responseValidator := some bMask }

/-- The fresh context with the rejecting verifier registered. -/
def ctxVerReject : Ctx := { ctx0 with responseValidator := some bReject }

/-- Claim C1: when the schema validate returns exactly the literal true, the
middleware produced by validate stores the masked value (the raw value when
no mask function exists) into the request context under the data kind, no
response is produced, and the chain continuation runs. -/
theorem validate_valid_stores_and_proceeds
    (dataType : String) (b : Binding) (value : JVal) (ctx : Ctx)
    (hv : (b.validate value).isTrue = true) :
    validate dataType b value ctx =
      some ({ ctx with
                validated := (dataType, match b.mask with
                  | some m => m value
                  | none => value) :: ctx.validated,
                nextRan := true }, none) := by
  unfold validate validator
  simp only [hv, if_true]

/-- Witness for C1 at a concrete binding, value and context. -/
theorem validate_valid_stores_and_proceeds_witness :
    validate "json" bMask (.str "v") ctx0 =
      some ({ ctx0 with validated := [("json", .str "masked")],
                        nextRan := true }, none) :=
  validate_valid_stores_and_proceeds "json" bMask (.str "v") ctx0 rfl

/-- Claim C2: when the schema validate returns anything other than the
literal true, the middleware produced by validate finalizes a failure
envelope with success false, status 422, the message naming the data kind,
and data equal to the converted error list; the validated store and the
chain-continuation flag of the context are untouched, so the continuation
does not run. -/
theorem validate_invalid_fails_422
    (dataType : String) (b : Binding) (value : JVal) (ctx : Ctx) (errs : JVal)
    (hv : (b.validate value).isTrue = false)
    (he : getErrors (b.validate value) = some errs) :
    validate dataType b value ctx =
      some ({ ctx with statusSet := some (.num 422),
                       jsonBody := some (mkEnvelope false (.num 422)
                         ("request " ++ dataType ++ " data failed schema validation") errs) },
            some { status := .num 422,
                   body := mkEnvelope false (.num 422)
                     ("request " ++ dataType ++ " data failed schema validation") errs }) := by
  unfold validate validator
  simp only [hv, he, Bool.false_eq_true, if_false, fail, nullish, Ctx.setStatus, Ctx.json,
    Option.getD_some]

/-- Witness for C2 at a concrete rejecting binding and context. -/
theorem validate_invalid_fails_422_witness :
    validate "json" bReject (.num 3) ctx0 =
      some ({ ctx0 with statusSet := some (.num 422),
                        jsonBody := some (mkEnvelope false (.num 422)
                          "request json data failed schema validation"
                          (.arr [.str "expected string (got '3')"])) },
            some { status := .num 422,
                   body := mkEnvelope false (.num 422)
                     "request json data failed schema validation"
                     (.arr [.str "expected string (got '3')"]) }) := by
  have h := validate_invalid_fails_422 "json" bReject (.num 3) ctx0
    (.arr [.str "expected string (got '3')"]) rfl
    (by simp [bReject, getErrors, getErrorsList, getErrorsEntry, hasProp,
          getProp, jsToString])
  simpa using h

/-- Claim C3: when a response verifier is registered and its validate of the
full envelope returns anything other than the literal true, success throws a
SchemaError with status 500 whose result is exactly the value the verifier
returned; no context mutation or JSON finalization occurs, since the error
carries no updated context or response. -/
theorem success_verifier_rejects
    (ctx : Ctx) (v : Binding) (message : String) (result status : JVal)
    (hreg : ctx.responseValidator = some v)
    (hval : (v.validate (mkEnvelope true (nullish status (.num 200)) message
      (nullish result (.arr [])))).isTrue = false) :
    success ctx message result status =
      .error (.schemaErr "response data failed schema validation" 500
        (v.validate (mkEnvelope true (nullish status (.num 200)) message
          (nullish result (.arr []))))) := by
  unfold success
  rw [hreg]
  simp only [hval, Bool.false_eq_true, if_false]

/-- Witness for C3 at a concrete rejecting verifier. -/
theorem success_verifier_rejects_witness :
    success ctxVerReject "m" .undefined .undefined =
      .error (.schemaErr "response data failed schema validation" 500
        (.arr [.obj [("message", .str "expected string"),
                     ("value", .str "3")]])) := by
  have h := success_verifier_rejects ctxVerReject bReject "m" .undefined .undefined
    rfl rfl
  simpa [bReject] using h

/-- Claim C7: with no response verifier registered, success sets the HTTP
status on the context to the given status (200 when absent) and finalizes
the JSON envelope with success true, that status, the message, and data
equal to the given result (the empty array when absent); the payload is
never masked or rejected. -/
theorem success_no_verifier
    (ctx : Ctx) (message : String) (result status : JVal)
    (h : ctx.responseValidator = none) :
    success ctx message result status =
      .ok ({ ctx with
               statusSet := some (nullish status (.num 200)),
               jsonBody := some (mkEnvelope true (nullish status (.num 200))
                 message (nullish result (.arr []))) },
           { status := nullish status (.num 200),
             body := mkEnvelope true (nullish status (.num 200)) message
               (nullish result (.arr [])) }) := by
  unfold success
  rw [h]
  simp only [Ctx.setStatus, Ctx.json, Option.getD_some]
  rw [h]

/-- Witness for C7: with undefined result and status the envelope has
success true, status 200, the message, and the empty array as data. -/
theorem success_no_verifier_witness :
    success ctx0 "m" .undefined .undefined =
      .ok ({ ctx0 with statusSet := some (.num 200),
                       jsonBody := some (mkEnvelope true (.num 200) "m" (.arr [])) },
           { status := .num 200,
             body := mkEnvelope true (.num 200) "m" (.arr []) }) :=
  success_no_verifier ctx0 "m" .undefined .undefined rfl

/-- Claim C8: fail sets the HTTP status to the given status (400 when
absent) and finalizes the failure envelope with success false, that status,
the message, and data equal to the given result (undefined when absent);
and its result never depends on the registered response verifier. -/
theorem fail_envelope
    (ctx : Ctx) (message : String) (status result : JVal) (rv : Option Binding) :
    fail ctx message status result =
      ({ ctx with
           statusSet := some (nullish status (.num 400)),
           jsonBody := some (mkEnvelope false (nullish status (.num 400))
             message result) },
       { status := nullish status (.num 400),
         body := mkEnvelope false (nullish status (.num 400)) message result })
    ∧ (fail { ctx with responseValidator := rv } message status result).2 =
        (fail ctx message status result).2 := by
  constructor
  · unfold fail
    simp only [Ctx.setStatus, Ctx.json, Option.getD_some]
  · unfold fail
    simp only [Ctx.setStatus, Ctx.json, Option.getD_some]

/-- Claim C10: when a verifier with a mask function is registered and its
validate of the full envelope returns exactly true, success passes the full
envelope to the mask and the finalized JSON body is exactly the value that
the mask returned. -/
theorem success_mask_full_envelope
    (ctx : Ctx) (v : Binding) (m : JVal → JVal)
    (message : String) (result status : JVal)
    (hreg : ctx.responseValidator = some v)
    (hmask : v.mask = some m)
    (hval : (v.validate (mkEnvelope true (nullish status (.num 200)) message
      (nullish result (.arr [])))).isTrue = true) :
    success ctx message result status =
      .ok ({ ctx with
               statusSet := some (nullish status (.num 200)),
               jsonBody := some (m (mkEnvelope true (nullish status (.num 200))
                 message (nullish result (.arr [])))) },
           { status := nullish status (.num 200),
             body := m (mkEnvelope true (nullish status (.num 200)) message
               (nullish result (.arr []))) }) := by
  unfold success
  rw [hreg]
  simp only [hval, if_true, hmask, Ctx.setStatus, Ctx.json, Option.getD_some]
  rw [hreg]

/-- Witness for C10 at a concrete masking verifier: the finalized body is
the mask output in place of the whole envelope. -/
theorem success_mask_full_envelope_witness :
    success ctxVer "m" .undefined .undefined =
      .ok ({ ctxVer with statusSet := some (.num 200),
                         jsonBody := some (.str "masked") },
           { status := .num 200, body := .str "masked" }) := by
  have h := success_mask_full_envelope ctxVer bMask (fun _ => .str "masked")
    "m" .undefined .undefined rfl rfl rfl
  simpa using h

/-- Claim C4: a handler that throws a SchemaError carrying the one-record
result with message x and value y is translated by body into a failure
envelope whose data is the single string x (got 'y') and whose status is the
status carried by the error, for every context, in particular regardless of
the stack-trace environment flag. -/
theorem body_schema_error_result_wins
    (h : Ctx → Except (Ctx × JSError) (Ctx × ResponseObj)) (ctx ctx1 : Ctx)
    (msg : String) (st : Int)
    (hh : h ctx = .error (ctx1, .schemaErr msg st
      (.arr [.obj [("message", .str "x"), ("value", .str "y")]]))) :
    body h ctx =
      some ({ ctx1 with
                statusSet := some (.num st),
                jsonBody := some (mkEnvelope false (.num st) msg
                  (.arr [.str "x (got 'y')"])) },
            { status := .num st,
              body := mkEnvelope false (.num st) msg
                (.arr [.str "x (got 'y')"]) }) := by
  have hge : getErrors (.arr [.obj [("message", .str "x"), ("value", .str "y")]])
      = some (.arr [.str "x (got 'y')"]) := by
    simp [getErrors, getErrorsList, getErrorsEntry, hasProp, getProp, jsToString]
  unfold body
  rw [hh]
  simp only [hge, JSError.message, fail, nullish, Ctx.setStatus, Ctx.json,
    Option.getD_some]

/-- Witness for C4 at a concrete throwing handler with status 512 and with
the stack-trace flag set, showing the result list still wins. -/
theorem body_schema_error_result_wins_witness :
    body hSchemaThrow ctxTrue =
      some ({ ctxTrue with
                statusSet := some (.num 512),
                jsonBody := some (mkEnvelope false (.num 512) "oops"
                  (.arr [.str "x (got 'y')"])) },
            { status := .num 512,
              body := mkEnvelope false (.num 512) "oops"
                (.arr [.str "x (got 'y')"]) }) :=
  body_schema_error_result_wins hSchemaThrow ctxTrue ctxTrue "oops" 512 rfl

/-- Claim C5: a handler that throws a plain error with message boom is
translated by body into a failure envelope with success false, status 500,
message boom and undefined data when the stack-trace environment flag is
unset; when the flag is the string true or yes and the error carries a
multi-line stack string, the data is instead the non-empty list of stack
lines with the leading summary line dropped and any leading at prefix
stripped from each frame. -/
theorem body_plain_error_stack_flag
    (h : Ctx → Except (Ctx × JSError) (Ctx × ResponseObj)) (ctx ctx1 : Ctx)
    (stk : Option String)
    (hh : h ctx = .error (ctx1, .plainErr "boom" stk)) :
    (ctx1.envStacktrace = none →
      body h ctx =
        some ({ ctx1 with
                  statusSet := some (.num 500),
                  jsonBody := some (mkEnvelope false (.num 500) "boom" .undefined) },
              { status := .num 500,
                body := mkEnvelope false (.num 500) "boom" .undefined }))
    ∧ (∀ s, stk = some s →
        (ctx1.envStacktrace = some "true" ∨ ctx1.envStacktrace = some "yes") →
        2 ≤ (splitOnNewline s.data).length →
        body h ctx =
          some ({ ctx1 with
                    statusSet := some (.num 500),
                    jsonBody := some (mkEnvelope false (.num 500) "boom"
                      (.arr ((getStackLines s).map .str))) },
                { status := .num 500,
                  body := mkEnvelope false (.num 500) "boom"
                    (.arr ((getStackLines s).map .str)) })
          ∧ (getStackLines s).map JVal.str ≠ []) := by
  constructor
  · intro hflag
    unfold body
    rw [hh]
    simp only [hflag, JSError.message, fail, nullish, Ctx.setStatus, Ctx.json,
      Option.getD_some]
    simp
  · intro s hs hflag hlen
    constructor
    · unfold body
      rw [hh, hs]
      rcases hflag with hf | hf <;>
        simp only [hf, JSError.message, fail, nullish, Ctx.setStatus, Ctx.json,
          Option.getD_some] <;>
        simp
    · have hpos : 0 < ((getStackLines s).map JVal.str).length := by
        simp only [List.length_map, getStackLines, List.length_drop]
        omega
      exact List.ne_nil_of_length_pos hpos

/-- Witness for C5: the flag-true scenario at a concrete handler, context
and two-line stack, with the flag-unset scenario checked at a second
concrete context via the same theorem application. -/
theorem body_plain_error_stack_flag_witness :
    (body hBoom ctx0 =
      some ({ ctx0 with
                statusSet := some (.num 500),
                jsonBody := some (mkEnvelope false (.num 500) "boom" .undefined) },
            { status := .num 500,
              body := mkEnvelope false (.num 500) "boom" .undefined }))
    ∧ (body hBoom ctxTrue =
        some ({ ctxTrue with
                  statusSet := some (.num 500),
                  jsonBody := some (mkEnvelope false (.num 500) "boom"
                    (.arr [.str "foo (bar.js:1:1)"])) },
              { status := .num 500,
                body := mkEnvelope false (.num 500) "boom"
                  (.arr [.str "foo (bar.js:1:1)"]) })) := by
  have h1 := (body_plain_error_stack_flag hBoom ctx0 ctx0 (some stackStr) rfl).1 rfl
  have h2 := ((body_plain_error_stack_flag hBoom ctxTrue ctxTrue (some stackStr)
    rfl).2 stackStr rfl (Or.inl rfl) (by decide)).1
  refine ⟨h1, ?_⟩
  have hlines : getStackLines stackStr = ["foo (bar.js:1:1)"] := by decide
  rw [hlines] at h2
  exact h2

/-- An entry that is a plain object converts exactly as the specification
words it. -/
theorem getErrorsEntry_obj (fs : List (String × JVal)) :
    getErrorsEntry (.obj fs) = some (specConvertEntry (.obj fs)) := by
  unfold getErrorsEntry specConvertEntry hasProp
  cases hm : fs.any (fun p => p.1 == "message") <;>
    cases hv : fs.any (fun p => p.1 == "value") <;>
      simp only [hm, hv]

/-- Claim C6: getErrors returns a non-array input unchanged, and maps every
list of error records (plain objects) to the list in which each record
having both a message and a value property becomes the interpolated string
and every other record is passed through unchanged, as the specification
words it through specConvertEntry. -/
theorem getErrors_matches_spec :
    (∀ v : JVal, v.isArray = false → getErrors v = some v)
    ∧ (∀ l : List JVal, (∀ e ∈ l, e.isObject = true) →
        getErrors (.arr l) = some (.arr (l.map specConvertEntry))) := by
  constructor
  · intro v hv
    cases v <;> first
      | rfl
      | simp [JVal.isArray] at hv
  · intro l hl
    have hmap : getErrorsList l = some (l.map specConvertEntry) := by
      induction l with
      | nil => rfl
      | cons e t ih =>
          have he : e.isObject = true := hl e (List.mem_cons_self e t)
          obtain ⟨fs, rfl⟩ : ∃ fs, e = .obj fs := by
            cases e <;> simp [JVal.isObject] at he
            exact ⟨_, rfl⟩
          have ht := ih (fun x hx => hl x (List.mem_cons_of_mem _ hx))
          simp [getErrorsList, getErrorsEntry_obj, ht]
    simp [getErrors, hmap]

/-- Witness for C6 at a concrete two-entry list: a full record becomes the
interpolated string and a record lacking the fields passes through. -/
theorem getErrors_matches_spec_witness :
    getErrors (.arr [.obj [("message", .str "x"), ("value", .str "y")],
                     .obj [("other", .num 1)]]) =
      some (.arr [.str "x (got 'y')", .obj [("other", .num 1)]]) := by
  have h := getErrors_matches_spec.2
    [.obj [("message", .str "x"), ("value", .str "y")],
     .obj [("other", .num 1)]] (by simp [JVal.isObject])
  simpa [specConvertEntry, hasProp, getProp, jsToString] using h

/-- Claim C9: routeHandler returns a list of the same length in which, at
every position, an asynchronous function of declared arity one is replaced
by its body wrapping and every other argument is the input entry itself. -/
theorem routeHandler_classification (args : List RouteArg) :
    (routeHandler args).length = args.length
    ∧ ∀ i : Nat, (routeHandler args)[i]? = (args[i]?).map (fun a =>
        match a with
        | .func true 1 f => .wrapped (body f)
        | a => .plain a) := by
  refine ⟨by simp [routeHandler], fun i => ?_⟩
  simp [routeHandler]

end CfRequests
